import Mathlib

/-!
Shallow embedding of `src/sap.f/src/sap/f/IllustratedMessage.js` (the
`sap.f.IllustratedMessage` UI5 control).  The control's mutable state
(properties, hidden aggregations, style classes, cached illustration
set/type, resize-handler registration) is modelled as an explicit record,
and every method of the source becomes a state-passing Lean function.
Object identity of lazily created child controls is modelled with a
fresh-id counter; the framework resource bundle is an abstract function
from keys to localized texts.
-/

namespace SapF

/-- Modelled from the spec: the `sap.f.IllustratedMessageSize` enumeration
(the `library.js` defining it is not part of the sources; the spec and the
control's jsdoc describe the breakpoint variants `Auto`, `Base`, `Spot`,
`Dialog`, `Scene`, each enum member carrying its own name as string
value). -/
inductive IllustratedMessageSize where
  | Auto
  | Base
  | Spot
  | Dialog
  | Scene
deriving DecidableEq, Repr

/-- Modelled from the spec: the string value carried by each
`IllustratedMessageSize` enum member (UI5 enum members are strings equal
to the member name). -/
def IllustratedMessageSize.toVal : IllustratedMessageSize → String
  | .Auto => "Auto"
  | .Base => "Base"
  | .Spot => "Spot"
  | .Dialog => "Dialog"
  | .Scene => "Scene"

/-- JavaScript string coercion of a possibly-undefined string value
(string concatenation with `undefined` yields the text "undefined"). -/
def jsStr : Option String → String
  | some s => s
  | none => "undefined"

/-- JavaScript `String.prototype.split` with a single-character separator,
on the character list of the string: `"" ↦ [""]`, separators delimit
(possibly empty) segments. -/
def jsSplitList (sep : Char) : List Char → List (List Char)
  | [] => [[]]
  | c :: cs =>
    if c = sep then [] :: jsSplitList sep cs
    else
      match jsSplitList sep cs with
      | [] => [[c]]
      | t :: ts => (c :: t) :: ts

/-- JavaScript `s.split(sep)` for a one-character separator. -/
def jsSplit (sep : Char) (s : String) : List String :=
  (jsSplitList sep s.data).map (fun cs => ⟨cs⟩)

/-- Modelled from the spec: the `sap.m.Text` child control (its module is
not part of the sources) as object identity plus its `text` property. -/
structure MText where
  id : Nat
  text : String
deriving DecidableEq, Repr

/-- Modelled from the spec: the `sap.m.Title` child control (its module is
not part of the sources) as object identity plus its `text` property. -/
structure MTitle where
  id : Nat
  text : String
deriving DecidableEq, Repr

/-- Modelled from the spec: the `sap.m.FormattedText` child control (its
module is not part of the sources) as object identity plus its
`htmlText` property. -/
structure MFormattedText where
  id : Nat
  htmlText : String
deriving DecidableEq, Repr

/-- Modelled from the spec: the `sap.f.Illustration` child control (its
module is not part of the sources) as object identity plus the `set`,
`media` and `type` values installed by its setters (all `undefined` on a
freshly constructed instance). -/
structure Illustration where
  id : Nat
  set : Option String
  media : Option String
  typ : Option String
deriving DecidableEq, Repr

/-- Modelled from the spec: `Illustration.prototype.setSet` as a plain
property setter (the suppress-invalidate flag has no observable effect
in the model). -/
def Illustration.setSet (o : Illustration) (v : Option String) : Illustration :=
  { o with set := v }

/-- Modelled from the spec: `Illustration.prototype.setMedia` as a plain
property setter. -/
def Illustration.setMedia (o : Illustration) (v : String) : Illustration :=
  { o with media := some v }

/-- Modelled from the spec: `Illustration.prototype.setType` as a plain
property setter. -/
def Illustration.setType (o : Illustration) (v : Option String) : Illustration :=
  { o with typ := v }

/-- The state of one `sap.f.IllustratedMessage` control: its five declared
properties, the cached illustration set/type written by
`_updateInternalIllustrationSetAndType`, the four hidden aggregations,
the style classes currently on the control, the stored content
resize-handler id together with the framework's registry of handlers
registered by this control, and a fresh-id counter modelling object
allocation. -/
structure IllustratedMessage where
  description : String
  enableFormattedText : Bool
  illustrationSize : IllustratedMessageSize
  illustrationType : String
  title : String
  _sIllustrationSet : Option String
  _sIllustrationType : Option String
  _formattedText : Option MFormattedText
  _illustration : Option Illustration
  _text : Option MText
  _title : Option MTitle
  styleClasses : List String
  _sContentResizeHandlerId : Option Nat
  registered : List Nat
  fresh : Nat
deriving DecidableEq, Repr

namespace IllustratedMessage

/-- `IllustratedMessage.PREPENDS.DESCRIPTION`. -/
def PREPENDS_DESCRIPTION : String := "IllustratedMessage_DESCRIPTION_"

/-- `IllustratedMessage.PREPENDS.TITLE`. -/
def PREPENDS_TITLE : String := "IllustratedMessage_TITLE_"

/-- `IllustratedMessage.BREAK_POINTS.DIALOG`. -/
def BREAK_POINTS_DIALOG : Nat := 679

/-- `IllustratedMessage.BREAK_POINTS.SPOT`. -/
def BREAK_POINTS_SPOT : Nat := 319

/-- `IllustratedMessage.BREAK_POINTS.BASE`. -/
def BREAK_POINTS_BASE : Nat := 259

/-- `IllustratedMessage.MEDIA.BASE`. -/
def MEDIA_BASE : String := "sapFIllustratedMessage-Base"

/-- `IllustratedMessage.MEDIA.SPOT`. -/
def MEDIA_SPOT : String := "sapFIllustratedMessage-Spot"

/-- `IllustratedMessage.MEDIA.DIALOG`. -/
def MEDIA_DIALOG : String := "sapFIllustratedMessage-Dialog"

/-- `IllustratedMessage.MEDIA.SCENE`. -/
def MEDIA_SCENE : String := "sapFIllustratedMessage-Scene"

/-- The `IllustratedMessage.MEDIA` object as the ordered list of its
key/value pairs (`Object.keys` enumerates them in this insertion
order). -/
def MEDIA_pairs : List (String × String) :=
  [("BASE", MEDIA_BASE), ("SPOT", MEDIA_SPOT), ("DIALOG", MEDIA_DIALOG), ("SCENE", MEDIA_SCENE)]

/-- JavaScript property lookup `IllustratedMessage.MEDIA[k]` (`none` is
`undefined`). -/
def MEDIA_lookup (k : String) : Option String :=
  MEDIA_pairs.lookup k

/-- Modelled from the spec: the framework's
`Control.prototype.toggleStyleClass` (not part of the sources): with
`b = true` it adds the class (if not already present), with `b = false`
it removes it. -/
def toggleStyleClass (st : IllustratedMessage) (c : String) (b : Bool) : IllustratedMessage :=
  if b then
    if c ∈ st.styleClasses then st
    else { st with styleClasses := st.styleClasses ++ [c] }
  else
    { st with styleClasses := st.styleClasses.filter (fun x => x != c) }

/-- `_updateInternalIllustrationSetAndType`: splits the value at `"-"` and
caches segment 0 as the illustration set and segment 1 as the
illustration type. -/
def _updateInternalIllustrationSetAndType (sValue : String) (st : IllustratedMessage) :
    IllustratedMessage :=
  let aValues := jsSplit '-' sValue
  { st with _sIllustrationSet := aValues[0]?, _sIllustrationType := aValues[1]? }

/-- `init`: caches set and type from the current `illustrationType`
property. -/
def init (st : IllustratedMessage) : IllustratedMessage :=
  _updateInternalIllustrationSetAndType st.illustrationType st

/-- Modelled from the spec: the framework's
`setProperty("illustrationType", v)` (not part of the sources), which
stores the property value. -/
def setPropertyIllustrationType (v : String) (st : IllustratedMessage) : IllustratedMessage :=
  { st with illustrationType := v }

/-- `setIllustrationType`: early-returns `this` when the value equals the
current property, otherwise re-caches set/type and stores the property. -/
def setIllustrationType (sValue : String) (st : IllustratedMessage) : IllustratedMessage :=
  if st.illustrationType = sValue then st
  else setPropertyIllustrationType sValue (_updateInternalIllustrationSetAndType sValue st)

/-- `_getDefaultDescription`: resource-bundle text for the description
prepend concatenated with the cached illustration type. -/
def _getDefaultDescription (rb : String → String) (st : IllustratedMessage) : String :=
  rb (PREPENDS_DESCRIPTION ++ jsStr st._sIllustrationType)

/-- `_getFormattedText`: lazily creates the `_formattedText` aggregation,
then installs the description (or the default description when the
property is empty) as its `htmlText`. -/
def _getFormattedText (rb : String → String) (st : IllustratedMessage) :
    MFormattedText × IllustratedMessage :=
  let sDescription := st.description
  let pr : MFormattedText × IllustratedMessage :=
    match st._formattedText with
    | some o => (o, st)
    | none =>
      let o : MFormattedText := ⟨st.fresh, ""⟩
      (o, { st with _formattedText := some o, fresh := st.fresh + 1 })
  let o :=
    if sDescription ≠ "" then { pr.1 with htmlText := sDescription }
    else { pr.1 with htmlText := _getDefaultDescription rb pr.2 }
  (o, { pr.2 with _formattedText := some o })

/-- `_getIllustration`: lazily creates the `_illustration` aggregation and
returns it. -/
def _getIllustration (st : IllustratedMessage) : Illustration × IllustratedMessage :=
  match st._illustration with
  | some o => (o, st)
  | none =>
    let o : Illustration := ⟨st.fresh, none, none, none⟩
    (o, { st with _illustration := some o, fresh := st.fresh + 1 })

/-- `_getText`: lazily creates the `_text` aggregation, then installs the
description (or the default description when the property is empty) as
its `text`. -/
def _getText (rb : String → String) (st : IllustratedMessage) :
    MText × IllustratedMessage :=
  let sDescription := st.description
  let pr : MText × IllustratedMessage :=
    match st._text with
    | some o => (o, st)
    | none =>
      let o : MText := ⟨st.fresh, ""⟩
      (o, { st with _text := some o, fresh := st.fresh + 1 })
  let o :=
    if sDescription ≠ "" then { pr.1 with text := sDescription }
    else { pr.1 with text := _getDefaultDescription rb pr.2 }
  (o, { pr.2 with _text := some o })

/-- `_getDescription`: dispatches on `enableFormattedText` between the
formatted-text and the plain-text description aggregation. -/
def _getDescription (rb : String → String) (st : IllustratedMessage) :
    (MText ⊕ MFormattedText) × IllustratedMessage :=
  if st.enableFormattedText then
    let pr := _getFormattedText rb st
    (Sum.inr pr.1, pr.2)
  else
    let pr := _getText rb st
    (Sum.inl pr.1, pr.2)

/-- `_getTitle`: lazily creates the `_title` aggregation, then installs
the title property (or the resource-bundle text for the title prepend
concatenated with the cached illustration type, when the property is
empty) as its `text`. -/
def _getTitle (rb : String → String) (st : IllustratedMessage) :
    MTitle × IllustratedMessage :=
  let sTitle := st.title
  let pr : MTitle × IllustratedMessage :=
    match st._title with
    | some o => (o, st)
    | none =>
      let o : MTitle := ⟨st.fresh, ""⟩
      (o, { st with _title := some o, fresh := st.fresh + 1 })
  let o :=
    if sTitle ≠ "" then { pr.1 with text := sTitle }
    else { pr.1 with text := rb (PREPENDS_TITLE ++ jsStr pr.2._sIllustrationType) }
  (o, { pr.2 with _title := some o })

/-- One iteration of the `Object.keys(MEDIA).forEach` body of
`_updateMediaStyle`, for the key/value pair `p`. -/
def _updateMediaStyleStep (sCurrentMedia : String) (st : IllustratedMessage)
    (p : String × String) : IllustratedMessage :=
  let bEnable := sCurrentMedia == p.2
  let sIdMedia : String := ⟨p.1.data.take 1 ++ (p.1.data.drop 1).map Char.toLower⟩
  let st1 := toggleStyleClass st p.2 bEnable
  if bEnable && !(sCurrentMedia == MEDIA_BASE) then
    let pr := _getIllustration st1
    let o := ((pr.1.setSet pr.2._sIllustrationSet).setMedia sIdMedia).setType pr.2._sIllustrationType
    { pr.2 with _illustration := some o }
  else st1

/-- `_updateMediaStyle`: toggles each of the four media style classes
(exactly the current one on) and, except for the Base media, pushes the
cached set, the media name and the cached type into the inner
`Illustration`. -/
def _updateMediaStyle (sCurrentMedia : String) (st : IllustratedMessage) : IllustratedMessage :=
  MEDIA_pairs.foldl (_updateMediaStyleStep sCurrentMedia) st

/-- `_updateMedia`: breakpoint selection from the control's width; a falsy
width is ignored. -/
def _updateMedia (iWidth : Nat) (st : IllustratedMessage) : IllustratedMessage :=
  if iWidth = 0 then st
  else if iWidth ≤ BREAK_POINTS_BASE then _updateMediaStyle MEDIA_BASE st
  else if iWidth ≤ BREAK_POINTS_SPOT then _updateMediaStyle MEDIA_SPOT st
  else if iWidth ≤ BREAK_POINTS_DIALOG then _updateMediaStyle MEDIA_DIALOG st
  else _updateMediaStyle MEDIA_SCENE st

/-- `_updateDomSize`: with no DOM reference does nothing; with one, the
`Auto` size measures the DOM width and delegates to `_updateMedia`, any
other size applies the `MEDIA` entry named by the uppercased size. The
DOM reference is modelled as the measured width of the control's
bounding rectangle, `none` meaning no rendered DOM. -/
def _updateDomSize (oDomRef : Option Nat) (st : IllustratedMessage) : IllustratedMessage :=
  match oDomRef with
  | none => st
  | some w =>
    let sSize := st.illustrationSize
    if sSize = IllustratedMessageSize.Auto then _updateMedia w st
    else _updateMediaStyle (jsStr (MEDIA_lookup ⟨sSize.toVal.data.map Char.toUpper⟩)) st

/-- `_registerResizeHandler` for the CONTENT handler id. Modelled from the
spec: the framework's `ResizeHandler.register` (not part of the sources)
allocates a fresh handler id and adds it to the registry of this
control's handlers. -/
def _registerResizeHandler (st : IllustratedMessage) : IllustratedMessage :=
  match st._sContentResizeHandlerId with
  | some _ => st
  | none =>
    { st with
      _sContentResizeHandlerId := some st.fresh
      registered := st.registered ++ [st.fresh]
      fresh := st.fresh + 1 }

/-- `_deRegisterResizeHandler` for the CONTENT handler id. Modelled from
the spec: the framework's `ResizeHandler.deregister` (not part of the
sources) removes the stored handler from the registry; the stored id is
then nulled. -/
def _deRegisterResizeHandler (st : IllustratedMessage) : IllustratedMessage :=
  match st._sContentResizeHandlerId with
  | none => st
  | some h =>
    { st with
      registered := st.registered.filter (fun x => x != h)
      _sContentResizeHandlerId := none }

/-- `_attachResizeHandlers`: registers the content resize handler only
when the control has a DOM reference and `illustrationSize` is `Auto`. -/
def _attachResizeHandlers (oDomRef : Option Nat) (st : IllustratedMessage) :
    IllustratedMessage :=
  if oDomRef.isSome ∧ st.illustrationSize = IllustratedMessageSize.Auto then
    _registerResizeHandler st
  else st

/-- `_detachResizeHandlers`. -/
def _detachResizeHandlers (st : IllustratedMessage) : IllustratedMessage :=
  _deRegisterResizeHandler st

/-- `onBeforeRendering`. -/
def onBeforeRendering (st : IllustratedMessage) : IllustratedMessage :=
  _detachResizeHandlers st

/-- `onAfterRendering`. -/
def onAfterRendering (oDomRef : Option Nat) (st : IllustratedMessage) : IllustratedMessage :=
  _attachResizeHandlers oDomRef (_updateDomSize oDomRef st)

/-- `exit`. -/
def exit (st : IllustratedMessage) : IllustratedMessage :=
  _detachResizeHandlers st

/-- `_onResize`: the resize event carries the new width. -/
def _onResize (width : Nat) (st : IllustratedMessage) : IllustratedMessage :=
  _updateMedia width st

/-- The framework registry holds exactly the handler stored in the
control's `_sContentResizeHandlerId` field (established by a fresh
control and preserved by every lifecycle method). -/
def handlerInv (st : IllustratedMessage) : Prop :=
  st.registered = (match st._sContentResizeHandlerId with
                   | some h => [h]
                   | none => [])

/-- A freshly constructed control with all properties at their empty /
default values, before `init` runs. -/
def sample : IllustratedMessage :=
  ⟨"", false, .Auto, "sapIllus-NoSearchResults", "",
   none, none, none, none, none, none, [], none, [], 0⟩

/-- The sample control after `init` (cached set and type populated). -/
def sampleInit : IllustratedMessage := init sample

/-- A concrete resource bundle for witnesses: resolves each key to itself
tagged with a marker. -/
def rbW : String → String := fun k => "RB:" ++ k

/-- A control already holding a `_text` child, for witnesses about the
lazy getters. -/
def sampleChild : IllustratedMessage :=
  { sample with _text := some ⟨7, "x"⟩ }

end IllustratedMessage

end SapF

namespace SapF.IllustratedMessage

/-- C10: `_updateMedia` with a falsy width (0) leaves the control
unchanged: no media style class is toggled and the inner `Illustration`
is not updated. -/
theorem updateMedia_falsy_width (st : IllustratedMessage) : _updateMedia 0 st = st := rfl

/-- C9: `setIllustrationType` with a value equal to the current
`illustrationType` property returns the control itself, leaving the
property, the cached set/type, and every aggregation unchanged. -/
theorem setIllustrationType_same_value (v : String) (st : IllustratedMessage)
    (h : st.illustrationType = v) : setIllustrationType v st = st := by
  simp [setIllustrationType, h]

/-- Witness for C9 at a concrete control whose `illustrationType` equals
the argument. -/
theorem setIllustrationType_same_value_witness :
    sample.illustrationType = "sapIllus-NoSearchResults" ∧
      setIllustrationType "sapIllus-NoSearchResults" sample = sample :=
  ⟨rfl, setIllustrationType_same_value "sapIllus-NoSearchResults" sample rfl⟩

/-- C1: for every positive width `w`, `_updateMedia w` selects exactly one
media style class by the breakpoints — Base for `w ≤ 259`, Spot for
`259 < w ≤ 319`, Dialog for `319 < w ≤ 679`, Scene for `w > 679` — and
passes it to `_updateMediaStyle`. -/
theorem updateMedia_breakpoint_selection (w : Nat) (st : IllustratedMessage) (hw : 0 < w) :
    (w ≤ 259 → _updateMedia w st = _updateMediaStyle MEDIA_BASE st) ∧
    (259 < w → w ≤ 319 → _updateMedia w st = _updateMediaStyle MEDIA_SPOT st) ∧
    (319 < w → w ≤ 679 → _updateMedia w st = _updateMediaStyle MEDIA_DIALOG st) ∧
    (679 < w → _updateMedia w st = _updateMediaStyle MEDIA_SCENE st) := by
  simp only [_updateMedia, BREAK_POINTS_BASE, BREAK_POINTS_SPOT, BREAK_POINTS_DIALOG]
  refine ⟨fun h1 => ?_, fun h1 h2 => ?_, fun h1 h2 => ?_, fun h1 => ?_⟩
  · rw [if_neg (by omega), if_pos h1]
  · rw [if_neg (by omega), if_neg (by omega), if_pos h2]
  · rw [if_neg (by omega), if_neg (by omega), if_neg (by omega), if_pos h2]
  · rw [if_neg (by omega), if_neg (by omega), if_neg (by omega), if_neg (by omega)]

/-- Witness for C1 at the concrete width 300 (the Spot range). -/
theorem updateMedia_breakpoint_selection_witness :
    0 < 300 ∧
    ((300 ≤ 259 → _updateMedia 300 sample = _updateMediaStyle MEDIA_BASE sample) ∧
     (259 < 300 → 300 ≤ 319 → _updateMedia 300 sample = _updateMediaStyle MEDIA_SPOT sample) ∧
     (319 < 300 → 300 ≤ 679 → _updateMedia 300 sample = _updateMediaStyle MEDIA_DIALOG sample) ∧
     (679 < 300 → _updateMedia 300 sample = _updateMediaStyle MEDIA_SCENE sample)) :=
  ⟨by decide, updateMedia_breakpoint_selection 300 sample (by decide)⟩

theorem jsSplitList_ne_nil (sep : Char) (l : List Char) : jsSplitList sep l ≠ [] := by
  cases l with
  | nil => simp [jsSplitList]
  | cons c cs =>
    simp only [jsSplitList]
    split
    · simp
    · split <;> simp

theorem jsSplitList_getElem_zero (sep : Char) (l : List Char) :
    (jsSplitList sep l)[0]? = some (l.takeWhile (fun c => c != sep)) := by
  induction l with
  | nil => rfl
  | cons c cs ih =>
    by_cases h : c = sep
    · subst h
      simp [jsSplitList, List.takeWhile_cons]
    · cases hsplit : jsSplitList sep cs with
      | nil => exact absurd hsplit (jsSplitList_ne_nil sep cs)
      | cons t ts =>
        rw [hsplit] at ih
        simp only [List.getElem?_cons_zero, Option.some.injEq] at ih
        simp [jsSplitList, h, hsplit, List.takeWhile_cons, ih]

theorem jsSplitList_getElem_one (sep : Char) (l : List Char) :
    (jsSplitList sep l)[1]? =
      (if sep ∈ l then
        some (((l.dropWhile (fun c => c != sep)).drop 1).takeWhile (fun c => c != sep))
      else none) := by
  induction l with
  | nil => rfl
  | cons c cs ih =>
    by_cases h : c = sep
    · subst h
      simp [jsSplitList, List.dropWhile_cons, jsSplitList_getElem_zero]
    · cases hsplit : jsSplitList sep cs with
      | nil => exact absurd hsplit (jsSplitList_ne_nil sep cs)
      | cons t ts =>
        rw [hsplit] at ih
        have hmem : (sep ∈ c :: cs) ↔ sep ∈ cs := by
          constructor
          · intro hh
            rcases List.mem_cons.mp hh with hh | hh
            · exact absurd hh.symm h
            · exact hh
          · intro hh
            exact List.mem_cons_of_mem _ hh
        simp only [jsSplitList, if_neg h, hsplit, List.getElem?_cons_succ,
          List.getElem?_cons_zero] at ih ⊢
        rw [ih]
        by_cases hm : sep ∈ cs
        · simp [hm, hmem, List.dropWhile_cons, h]
        · simp [hm, hmem]

/-- C2: `_updateInternalIllustrationSetAndType` — reached directly, from
`init` with the current `illustrationType`, or from `setIllustrationType`
with a new value — caches as illustration set the segment of the value
before the first `"-"` and as illustration type the segment between the
first and the second `"-"` (absent when the value has no `"-"`). -/
theorem updateInternal_cache_split (s : String) (st st' : IllustratedMessage)
    (hst : st' = _updateInternalIllustrationSetAndType s st ∨
      (st.illustrationType ≠ s ∧ st' = setIllustrationType s st) ∨
      (s = st.illustrationType ∧ st' = init st)) :
    st'._sIllustrationSet = some ⟨s.data.takeWhile (fun c => c != '-')⟩ ∧
    st'._sIllustrationType =
      (if '-' ∈ s.data then
        some ⟨((s.data.dropWhile (fun c => c != '-')).drop 1).takeWhile (fun c => c != '-')⟩
      else none) := by
  have hcore : ∀ t : IllustratedMessage,
      (_updateInternalIllustrationSetAndType s t)._sIllustrationSet =
        some ⟨s.data.takeWhile (fun c => c != '-')⟩ ∧
      (_updateInternalIllustrationSetAndType s t)._sIllustrationType =
        (if '-' ∈ s.data then
          some ⟨((s.data.dropWhile (fun c => c != '-')).drop 1).takeWhile (fun c => c != '-')⟩
        else none) := by
    intro t
    constructor
    · simp [_updateInternalIllustrationSetAndType, jsSplit, List.getElem?_map,
        jsSplitList_getElem_zero]
    · simp only [_updateInternalIllustrationSetAndType, jsSplit, List.getElem?_map,
        jsSplitList_getElem_one]
      split <;> simp
  rcases hst with h | ⟨hne, h⟩ | ⟨hs, h⟩
  · rw [h]; exact hcore st
  · rw [h, setIllustrationType, if_neg (fun hh => hne hh)]
    have := hcore st
    simpa [setPropertyIllustrationType] using this
  · rw [h, init, ← hs]; exact hcore st

/-- Witness for C2: `setIllustrationType "sapIllus-UnableToLoad"` on a
fresh control caches set `"sapIllus"` and type `"UnableToLoad"`. -/
theorem updateInternal_cache_split_witness :
    (setIllustrationType "sapIllus-UnableToLoad" sample)._sIllustrationSet = some "sapIllus" ∧
    (setIllustrationType "sapIllus-UnableToLoad" sample)._sIllustrationType =
      some "UnableToLoad" := by
  obtain ⟨h1, h2⟩ := updateInternal_cache_split "sapIllus-UnableToLoad" sample
    (setIllustrationType "sapIllus-UnableToLoad" sample)
    (Or.inr (Or.inl ⟨by decide, rfl⟩))
  exact ⟨h1.trans (by decide), h2.trans (by decide)⟩

/-- C3: with an empty `description` property, `_getText` and
`_getFormattedText` display the resource-bundle text for
`"IllustratedMessage_DESCRIPTION_"` concatenated with the cached
illustration type; with a non-empty `description`, they display the
property value itself. -/
theorem description_text_resolution (rb : String → String) (st : IllustratedMessage)
    (t : String) (hty : st._sIllustrationType = some t) :
    (st.description = "" →
      (_getText rb st).1.text = rb ("IllustratedMessage_DESCRIPTION_" ++ t) ∧
      (_getFormattedText rb st).1.htmlText = rb ("IllustratedMessage_DESCRIPTION_" ++ t)) ∧
    (st.description ≠ "" →
      (_getText rb st).1.text = st.description ∧
      (_getFormattedText rb st).1.htmlText = st.description) := by
  refine ⟨fun hd => ⟨?_, ?_⟩, fun hd => ⟨?_, ?_⟩⟩
  · cases h : st._text <;>
      simp [_getText, _getDefaultDescription, PREPENDS_DESCRIPTION, jsStr, h, hd, hty]
  · cases h : st._formattedText <;>
      simp [_getFormattedText, _getDefaultDescription, PREPENDS_DESCRIPTION, jsStr, h, hd, hty]
  · cases h : st._text <;> simp [_getText, h, hd]
  · cases h : st._formattedText <;> simp [_getFormattedText, h, hd]

/-- Witness for C3 on the initialized sample control (empty description,
cached type `"NoSearchResults"`). -/
theorem description_text_resolution_witness :
    sampleInit._sIllustrationType = some "NoSearchResults" ∧
    sampleInit.description = "" ∧
    (_getText rbW sampleInit).1.text = rbW ("IllustratedMessage_DESCRIPTION_" ++ "NoSearchResults") ∧
    (_getFormattedText rbW sampleInit).1.htmlText =
      rbW ("IllustratedMessage_DESCRIPTION_" ++ "NoSearchResults") := by
  have h := (description_text_resolution rbW sampleInit "NoSearchResults" (by decide)).1 (by decide)
  exact ⟨by decide, by decide, h.1, h.2⟩

/-- C4: with an empty `title` property, `_getTitle` displays the
resource-bundle text for `"IllustratedMessage_TITLE_"` concatenated with
the cached illustration type; with a non-empty `title`, it displays the
property value itself. -/
theorem title_text_resolution (rb : String → String) (st : IllustratedMessage)
    (t : String) (hty : st._sIllustrationType = some t) :
    (st.title = "" →
      (_getTitle rb st).1.text = rb ("IllustratedMessage_TITLE_" ++ t)) ∧
    (st.title ≠ "" →
      (_getTitle rb st).1.text = st.title) := by
  refine ⟨fun ht => ?_, fun ht => ?_⟩
  · cases h : st._title <;>
      simp [_getTitle, PREPENDS_TITLE, jsStr, h, ht, hty]
  · cases h : st._title <;> simp [_getTitle, h, ht]

/-- Witness for C4 on the initialized sample control (empty title, cached
type `"NoSearchResults"`). -/
theorem title_text_resolution_witness :
    sampleInit._sIllustrationType = some "NoSearchResults" ∧
    sampleInit.title = "" ∧
    (_getTitle rbW sampleInit).1.text = rbW ("IllustratedMessage_TITLE_" ++ "NoSearchResults") := by
  have h := (title_text_resolution rbW sampleInit "NoSearchResults" (by decide)).1 (by decide)
  exact ⟨by decide, by decide, h⟩

theorem getText_lazy (rb : String → String) (st : IllustratedMessage) :
    (∀ c, st._text = some c →
      (_getText rb st).1.id = c.id ∧ (_getText rb st).2.fresh = st.fresh) ∧
    (_getText rb (_getText rb st).2).1.id = (_getText rb st).1.id ∧
    (_getText rb (_getText rb st).2).2.fresh = (_getText rb st).2.fresh := by
  refine ⟨fun c hc => ⟨?_, ?_⟩, ?_, ?_⟩
  · by_cases hd : st.description = "" <;> simp [_getText, hc, hd]
  · simp [_getText, hc]
  · by_cases hd : st.description = "" <;> cases h : st._text <;> simp [_getText, h, hd]
  · by_cases hd : st.description = "" <;> cases h : st._text <;> simp [_getText, h, hd]

theorem getFormattedText_lazy (rb : String → String) (st : IllustratedMessage) :
    (∀ c, st._formattedText = some c →
      (_getFormattedText rb st).1.id = c.id ∧ (_getFormattedText rb st).2.fresh = st.fresh) ∧
    (_getFormattedText rb (_getFormattedText rb st).2).1.id = (_getFormattedText rb st).1.id ∧
    (_getFormattedText rb (_getFormattedText rb st).2).2.fresh = (_getFormattedText rb st).2.fresh := by
  refine ⟨fun c hc => ⟨?_, ?_⟩, ?_, ?_⟩
  · by_cases hd : st.description = "" <;> simp [_getFormattedText, hc, hd]
  · simp [_getFormattedText, hc]
  · by_cases hd : st.description = "" <;> cases h : st._formattedText <;>
      simp [_getFormattedText, h, hd]
  · by_cases hd : st.description = "" <;> cases h : st._formattedText <;>
      simp [_getFormattedText, h, hd]

theorem getTitle_lazy (rb : String → String) (st : IllustratedMessage) :
    (∀ c, st._title = some c →
      (_getTitle rb st).1.id = c.id ∧ (_getTitle rb st).2.fresh = st.fresh) ∧
    (_getTitle rb (_getTitle rb st).2).1.id = (_getTitle rb st).1.id ∧
    (_getTitle rb (_getTitle rb st).2).2.fresh = (_getTitle rb st).2.fresh := by
  refine ⟨fun c hc => ⟨?_, ?_⟩, ?_, ?_⟩
  · by_cases ht : st.title = "" <;> simp [_getTitle, hc, ht]
  · simp [_getTitle, hc]
  · by_cases ht : st.title = "" <;> cases h : st._title <;> simp [_getTitle, h, ht]
  · by_cases ht : st.title = "" <;> cases h : st._title <;> simp [_getTitle, h, ht]

theorem getIllustration_lazy (st : IllustratedMessage) :
    (∀ c, st._illustration = some c →
      (_getIllustration st).1.id = c.id ∧ (_getIllustration st).2.fresh = st.fresh) ∧
    (_getIllustration (_getIllustration st).2).1.id = (_getIllustration st).1.id ∧
    (_getIllustration (_getIllustration st).2).2.fresh = (_getIllustration st).2.fresh := by
  refine ⟨fun c hc => ⟨?_, ?_⟩, ?_, ?_⟩
  · simp [_getIllustration, hc]
  · simp [_getIllustration, hc]
  · cases h : st._illustration <;> simp [_getIllustration, h]
  · cases h : st._illustration <;> simp [_getIllustration, h]

/-- C5: each hidden-aggregation getter creates a child only when its
aggregation is empty (a stored child keeps its identity and no allocation
happens), and two consecutive calls to the same getter return the same
object without creating a second child. -/
theorem lazy_aggregation_getters (rb : String → String) (st : IllustratedMessage) :
    ((∀ c, st._text = some c →
        (_getText rb st).1.id = c.id ∧ (_getText rb st).2.fresh = st.fresh) ∧
      (_getText rb (_getText rb st).2).1.id = (_getText rb st).1.id ∧
      (_getText rb (_getText rb st).2).2.fresh = (_getText rb st).2.fresh) ∧
    ((∀ c, st._formattedText = some c →
        (_getFormattedText rb st).1.id = c.id ∧ (_getFormattedText rb st).2.fresh = st.fresh) ∧
      (_getFormattedText rb (_getFormattedText rb st).2).1.id = (_getFormattedText rb st).1.id ∧
      (_getFormattedText rb (_getFormattedText rb st).2).2.fresh = (_getFormattedText rb st).2.fresh) ∧
    ((∀ c, st._title = some c →
        (_getTitle rb st).1.id = c.id ∧ (_getTitle rb st).2.fresh = st.fresh) ∧
      (_getTitle rb (_getTitle rb st).2).1.id = (_getTitle rb st).1.id ∧
      (_getTitle rb (_getTitle rb st).2).2.fresh = (_getTitle rb st).2.fresh) ∧
    ((∀ c, st._illustration = some c →
        (_getIllustration st).1.id = c.id ∧ (_getIllustration st).2.fresh = st.fresh) ∧
      (_getIllustration (_getIllustration st).2).1.id = (_getIllustration st).1.id ∧
      (_getIllustration (_getIllustration st).2).2.fresh = (_getIllustration st).2.fresh) :=
  ⟨getText_lazy rb st, getFormattedText_lazy rb st, getTitle_lazy rb st, getIllustration_lazy st⟩

/-- Witness for C5: on a control already holding a `_text` child with id 7,
`_getText` returns that child and allocates nothing. -/
theorem lazy_aggregation_getters_witness :
    sampleChild._text = some ⟨7, "x"⟩ ∧
    (_getText rbW sampleChild).1.id = 7 ∧
    (_getText rbW sampleChild).2.fresh = sampleChild.fresh := by
  have h := ((lazy_aggregation_getters rbW sampleChild).1).1 ⟨7, "x"⟩ rfl
  exact ⟨rfl, h.1, h.2⟩

theorem toggleStyleClass_preserves (st : IllustratedMessage) (c : String) (b : Bool) :
    (toggleStyleClass st c b)._illustration = st._illustration ∧
    (toggleStyleClass st c b)._sIllustrationSet = st._sIllustrationSet ∧
    (toggleStyleClass st c b)._sIllustrationType = st._sIllustrationType ∧
    (toggleStyleClass st c b).illustrationSize = st.illustrationSize ∧
    (toggleStyleClass st c b)._sContentResizeHandlerId = st._sContentResizeHandlerId ∧
    (toggleStyleClass st c b).registered = st.registered := by
  unfold toggleStyleClass
  split
  · split
    · exact ⟨rfl, rfl, rfl, rfl, rfl, rfl⟩
    · exact ⟨rfl, rfl, rfl, rfl, rfl, rfl⟩
  · exact ⟨rfl, rfl, rfl, rfl, rfl, rfl⟩

theorem mem_toggleStyleClass (st : IllustratedMessage) (c : String) (b : Bool) (a : String) :
    (a ∈ (toggleStyleClass st c b).styleClasses) ↔
      (if a = c then b = true else a ∈ st.styleClasses) := by
  unfold toggleStyleClass
  cases b with
  | false => by_cases hac : a = c <;> simp [List.mem_filter, hac]
  | true =>
    by_cases hmemc : c ∈ st.styleClasses
    · by_cases hac : a = c <;> simp [hmemc, hac]
    · by_cases hac : a = c <;> simp [hmemc, hac]

theorem getIllustration_preserves (st : IllustratedMessage) :
    (_getIllustration st).2.styleClasses = st.styleClasses ∧
    (_getIllustration st).2._sIllustrationSet = st._sIllustrationSet ∧
    (_getIllustration st).2._sIllustrationType = st._sIllustrationType ∧
    (_getIllustration st).2.illustrationSize = st.illustrationSize ∧
    (_getIllustration st).2._sContentResizeHandlerId = st._sContentResizeHandlerId ∧
    (_getIllustration st).2.registered = st.registered := by
  cases h : st._illustration <;> simp [_getIllustration, h]

theorem step_mem (m : String) (st : IllustratedMessage) (p : String × String) (a : String) :
    (a ∈ (_updateMediaStyleStep m st p).styleClasses) ↔
      (if a = p.2 then (m == p.2) = true else a ∈ st.styleClasses) := by
  simp only [_updateMediaStyleStep]
  split
  · rw [show ∀ (s : IllustratedMessage) (o : Option Illustration),
        ({ s with _illustration := o } : IllustratedMessage).styleClasses = s.styleClasses
        from fun _ _ => rfl]
    rw [(getIllustration_preserves _).1]
    exact mem_toggleStyleClass st p.2 (m == p.2) a
  · exact mem_toggleStyleClass st p.2 (m == p.2) a

theorem step_preserves_cache (m : String) (st : IllustratedMessage) (p : String × String) :
    (_updateMediaStyleStep m st p)._sIllustrationSet = st._sIllustrationSet ∧
    (_updateMediaStyleStep m st p)._sIllustrationType = st._sIllustrationType ∧
    (_updateMediaStyleStep m st p).illustrationSize = st.illustrationSize ∧
    (_updateMediaStyleStep m st p)._sContentResizeHandlerId = st._sContentResizeHandlerId ∧
    (_updateMediaStyleStep m st p).registered = st.registered := by
  simp only [_updateMediaStyleStep]
  split
  · have hg := getIllustration_preserves (toggleStyleClass st p.2 (m == p.2))
    have ht := toggleStyleClass_preserves st p.2 (m == p.2)
    refine ⟨?_, ?_, ?_, ?_, ?_⟩ <;>
      simp only [show ∀ (s : IllustratedMessage) (o : Option Illustration),
          (({ s with _illustration := o } : IllustratedMessage)._sIllustrationSet =
            s._sIllustrationSet) ∧
          (({ s with _illustration := o } : IllustratedMessage)._sIllustrationType =
            s._sIllustrationType) ∧
          (({ s with _illustration := o } : IllustratedMessage).illustrationSize =
            s.illustrationSize) ∧
          (({ s with _illustration := o } : IllustratedMessage)._sContentResizeHandlerId =
            s._sContentResizeHandlerId) ∧
          (({ s with _illustration := o } : IllustratedMessage).registered = s.registered)
          from fun _ _ => ⟨rfl, rfl, rfl, rfl, rfl⟩]
    · exact (hg.2.1).trans ht.2.1
    · exact (hg.2.2.1).trans ht.2.2.1
    · exact (hg.2.2.2.1).trans ht.2.2.2.1
    · exact (hg.2.2.2.2.1).trans ht.2.2.2.2.1
    · exact (hg.2.2.2.2.2).trans ht.2.2.2.2.2
  · have ht := toggleStyleClass_preserves st p.2 (m == p.2)
    exact ⟨ht.2.1, ht.2.2.1, ht.2.2.2.1, ht.2.2.2.2.1, ht.2.2.2.2.2⟩

theorem step_illustration_disabled (m : String) (st : IllustratedMessage) (p : String × String)
    (h : ¬(((m == p.2) && !(m == MEDIA_BASE)) = true)) :
    (_updateMediaStyleStep m st p)._illustration = st._illustration := by
  simp only [_updateMediaStyleStep]
  rw [if_neg h]
  exact (toggleStyleClass_preserves st p.2 (m == p.2)).1

theorem step_illustration_enabled (m : String) (st : IllustratedMessage) (p : String × String)
    (h : ((m == p.2) && !(m == MEDIA_BASE)) = true) :
    ∃ o, (_updateMediaStyleStep m st p)._illustration = some o ∧
      o.set = st._sIllustrationSet ∧
      o.media = some ⟨p.1.data.take 1 ++ (p.1.data.drop 1).map Char.toLower⟩ ∧
      o.typ = st._sIllustrationType := by
  simp only [_updateMediaStyleStep]
  rw [if_pos h]
  have hg := getIllustration_preserves (toggleStyleClass st p.2 (m == p.2))
  have ht := toggleStyleClass_preserves st p.2 (m == p.2)
  refine ⟨_, rfl, ?_, rfl, ?_⟩
  · exact (hg.2.1).trans ht.2.1
  · exact (hg.2.2.1).trans ht.2.2.1

theorem updateMediaStyle_unfold (m : String) (st : IllustratedMessage) :
    _updateMediaStyle m st =
      _updateMediaStyleStep m
        (_updateMediaStyleStep m
          (_updateMediaStyleStep m
            (_updateMediaStyleStep m st ("BASE", MEDIA_BASE))
            ("SPOT", MEDIA_SPOT))
          ("DIALOG", MEDIA_DIALOG))
        ("SCENE", MEDIA_SCENE) := rfl

theorem updateMediaStyle_mem (m : String) (st : IllustratedMessage) (a : String) :
    (a ∈ (_updateMediaStyle m st).styleClasses) ↔
      (if a = MEDIA_SCENE then (m == MEDIA_SCENE) = true
       else if a = MEDIA_DIALOG then (m == MEDIA_DIALOG) = true
       else if a = MEDIA_SPOT then (m == MEDIA_SPOT) = true
       else if a = MEDIA_BASE then (m == MEDIA_BASE) = true
       else a ∈ st.styleClasses) := by
  rw [updateMediaStyle_unfold, step_mem, step_mem, step_mem, step_mem]

theorem updateMediaStyle_preserves (m : String) (st : IllustratedMessage) :
    (_updateMediaStyle m st)._sIllustrationSet = st._sIllustrationSet ∧
    (_updateMediaStyle m st)._sIllustrationType = st._sIllustrationType ∧
    (_updateMediaStyle m st).illustrationSize = st.illustrationSize ∧
    (_updateMediaStyle m st)._sContentResizeHandlerId = st._sContentResizeHandlerId ∧
    (_updateMediaStyle m st).registered = st.registered := by
  rw [updateMediaStyle_unfold]
  refine ⟨?_, ?_, ?_, ?_, ?_⟩
  · exact ((step_preserves_cache _ _ _).1).trans
      (((step_preserves_cache _ _ _).1).trans
        (((step_preserves_cache _ _ _).1).trans ((step_preserves_cache _ _ _).1)))
  · exact ((step_preserves_cache _ _ _).2.1).trans
      (((step_preserves_cache _ _ _).2.1).trans
        (((step_preserves_cache _ _ _).2.1).trans ((step_preserves_cache _ _ _).2.1)))
  · exact ((step_preserves_cache _ _ _).2.2.1).trans
      (((step_preserves_cache _ _ _).2.2.1).trans
        (((step_preserves_cache _ _ _).2.2.1).trans ((step_preserves_cache _ _ _).2.2.1)))
  · exact ((step_preserves_cache _ _ _).2.2.2.1).trans
      (((step_preserves_cache _ _ _).2.2.2.1).trans
        (((step_preserves_cache _ _ _).2.2.2.1).trans ((step_preserves_cache _ _ _).2.2.2.1)))
  · exact ((step_preserves_cache _ _ _).2.2.2.2).trans
      (((step_preserves_cache _ _ _).2.2.2.2).trans
        (((step_preserves_cache _ _ _).2.2.2.2).trans ((step_preserves_cache _ _ _).2.2.2.2)))

/-- C8: after `_updateMediaStyle m` for one of the four `MEDIA` values
`m`, the control carries exactly the style class `m` among the four media
classes, and unless `m` is the Base media the inner `Illustration` holds
the cached illustration set, the capitalized media name, and the cached
illustration type. -/
theorem updateMediaStyle_exact_class (st : IllustratedMessage) (p : String × String)
    (hp : p ∈ MEDIA_pairs) :
    (∀ q ∈ MEDIA_pairs, (q.2 ∈ (_updateMediaStyle p.2 st).styleClasses ↔ q.2 = p.2)) ∧
    (p.2 ≠ MEDIA_BASE →
      ∃ o, (_updateMediaStyle p.2 st)._illustration = some o ∧
        o.set = st._sIllustrationSet ∧
        o.media = some ⟨p.1.data.take 1 ++ (p.1.data.drop 1).map Char.toLower⟩ ∧
        o.typ = st._sIllustrationType) := by
  have hmemPart : ∀ r : String × String, r ∈ MEDIA_pairs →
      ∀ q ∈ MEDIA_pairs, (q.2 ∈ (_updateMediaStyle r.2 st).styleClasses ↔ q.2 = r.2) := by
    intro r hr q hq
    rw [updateMediaStyle_mem]
    fin_cases hr <;> fin_cases hq <;>
      simp [MEDIA_BASE, MEDIA_SPOT, MEDIA_DIALOG, MEDIA_SCENE, beq_iff_eq]
  refine ⟨hmemPart p hp, fun hne => ?_⟩
  fin_cases hp
  · exact absurd rfl hne
  · -- SPOT
    rw [updateMediaStyle_unfold]
    obtain ⟨o, ho, hset, hmedia, htyp⟩ :=
      step_illustration_enabled MEDIA_SPOT (_updateMediaStyleStep MEDIA_SPOT st ("BASE", MEDIA_BASE))
        ("SPOT", MEDIA_SPOT) (by decide)
    refine ⟨o, ?_, ?_, hmedia, ?_⟩
    · rw [step_illustration_disabled _ _ _ (by decide), step_illustration_disabled _ _ _ (by decide), ho]
    · exact hset.trans (step_preserves_cache MEDIA_SPOT st ("BASE", MEDIA_BASE)).1
    · exact htyp.trans (step_preserves_cache MEDIA_SPOT st ("BASE", MEDIA_BASE)).2.1
  · -- DIALOG
    rw [updateMediaStyle_unfold]
    obtain ⟨o, ho, hset, hmedia, htyp⟩ :=
      step_illustration_enabled MEDIA_DIALOG
        (_updateMediaStyleStep MEDIA_DIALOG
          (_updateMediaStyleStep MEDIA_DIALOG st ("BASE", MEDIA_BASE)) ("SPOT", MEDIA_SPOT))
        ("DIALOG", MEDIA_DIALOG) (by decide)
    refine ⟨o, ?_, ?_, hmedia, ?_⟩
    · rw [step_illustration_disabled _ _ _ (by decide), ho]
    · exact hset.trans
        (((step_preserves_cache _ _ _).1).trans (step_preserves_cache _ _ _).1)
    · exact htyp.trans
        (((step_preserves_cache _ _ _).2.1).trans (step_preserves_cache _ _ _).2.1)
  · -- SCENE
    rw [updateMediaStyle_unfold]
    obtain ⟨o, ho, hset, hmedia, htyp⟩ :=
      step_illustration_enabled MEDIA_SCENE
        (_updateMediaStyleStep MEDIA_SCENE
          (_updateMediaStyleStep MEDIA_SCENE
            (_updateMediaStyleStep MEDIA_SCENE st ("BASE", MEDIA_BASE)) ("SPOT", MEDIA_SPOT))
          ("DIALOG", MEDIA_DIALOG))
        ("SCENE", MEDIA_SCENE) (by decide)
    refine ⟨o, ho, ?_, hmedia, ?_⟩
    · exact hset.trans
        ((((step_preserves_cache _ _ _).1).trans (step_preserves_cache _ _ _).1).trans
          (step_preserves_cache _ _ _).1)
    · exact htyp.trans
        ((((step_preserves_cache _ _ _).2.1).trans (step_preserves_cache _ _ _).2.1).trans
          (step_preserves_cache _ _ _).2.1)

/-- Witness for C8 with the Spot media on a control with cached set and
type. -/
theorem updateMediaStyle_exact_class_witness :
    ("SPOT", MEDIA_SPOT) ∈ MEDIA_pairs ∧
    (∀ q ∈ MEDIA_pairs,
      (q.2 ∈ (_updateMediaStyle MEDIA_SPOT sampleInit).styleClasses ↔ q.2 = MEDIA_SPOT)) ∧
    (∃ o, (_updateMediaStyle MEDIA_SPOT sampleInit)._illustration = some o ∧
      o.set = sampleInit._sIllustrationSet ∧
      o.media = some "Spot" ∧
      o.typ = sampleInit._sIllustrationType) := by
  have h := updateMediaStyle_exact_class sampleInit ("SPOT", MEDIA_SPOT) (by decide)
  obtain ⟨o, ho, hset, hmedia, htyp⟩ := h.2 (by decide)
  exact ⟨by decide, h.1, o, ho, hset, hmedia.trans (by decide), htyp⟩

/-- C6: `_updateDomSize` with no DOM reference changes nothing; with a
rendered DOM it selects the media style from the measured width via
`_updateMedia` exactly when `illustrationSize` is `Auto`, and for every
other size applies the `MEDIA` entry named by the uppercased size,
independently of the width. -/
theorem updateDomSize_media_selection (oDomRef : Option Nat) (st : IllustratedMessage) :
    (_updateDomSize none st = st) ∧
    (∀ w, oDomRef = some w →
      (st.illustrationSize = IllustratedMessageSize.Auto →
        _updateDomSize oDomRef st = _updateMedia w st) ∧
      (st.illustrationSize = IllustratedMessageSize.Base →
        _updateDomSize oDomRef st = _updateMediaStyle MEDIA_BASE st) ∧
      (st.illustrationSize = IllustratedMessageSize.Spot →
        _updateDomSize oDomRef st = _updateMediaStyle MEDIA_SPOT st) ∧
      (st.illustrationSize = IllustratedMessageSize.Dialog →
        _updateDomSize oDomRef st = _updateMediaStyle MEDIA_DIALOG st) ∧
      (st.illustrationSize = IllustratedMessageSize.Scene →
        _updateDomSize oDomRef st = _updateMediaStyle MEDIA_SCENE st)) := by
  refine ⟨rfl, fun w hw => ?_⟩
  subst hw
  refine ⟨fun h => ?_, fun h => ?_, fun h => ?_, fun h => ?_, fun h => ?_⟩
  · simp [_updateDomSize, h]
  · simp only [_updateDomSize, h]
    rw [if_neg (by decide)]
    rw [show jsStr (MEDIA_lookup
        ⟨(IllustratedMessageSize.toVal IllustratedMessageSize.Base).data.map Char.toUpper⟩)
      = MEDIA_BASE from by decide]
  · simp only [_updateDomSize, h]
    rw [if_neg (by decide)]
    rw [show jsStr (MEDIA_lookup
        ⟨(IllustratedMessageSize.toVal IllustratedMessageSize.Spot).data.map Char.toUpper⟩)
      = MEDIA_SPOT from by decide]
  · simp only [_updateDomSize, h]
    rw [if_neg (by decide)]
    rw [show jsStr (MEDIA_lookup
        ⟨(IllustratedMessageSize.toVal IllustratedMessageSize.Dialog).data.map Char.toUpper⟩)
      = MEDIA_DIALOG from by decide]
  · simp only [_updateDomSize, h]
    rw [if_neg (by decide)]
    rw [show jsStr (MEDIA_lookup
        ⟨(IllustratedMessageSize.toVal IllustratedMessageSize.Scene).data.map Char.toUpper⟩)
      = MEDIA_SCENE from by decide]

/-- Witness for C6: with a DOM of width 500 and the `Auto` size, the media
style comes from `_updateMedia` on the measured width. -/
theorem updateDomSize_media_selection_witness :
    (some 500 : Option Nat) = some 500 ∧
    sample.illustrationSize = IllustratedMessageSize.Auto ∧
    _updateDomSize (some 500) sample = _updateMedia 500 sample :=
  ⟨rfl, rfl, ((updateDomSize_media_selection (some 500) sample).2 500 rfl).1 rfl⟩

theorem deregister_clears (st : IllustratedMessage) (hinv : handlerInv st) :
    (_deRegisterResizeHandler st)._sContentResizeHandlerId = none ∧
    (_deRegisterResizeHandler st).registered = [] := by
  unfold handlerInv at hinv
  cases h : st._sContentResizeHandlerId with
  | none =>
    rw [h] at hinv
    constructor <;> simp [_deRegisterResizeHandler, h, hinv]
  | some h0 =>
    rw [h] at hinv
    constructor <;> simp [_deRegisterResizeHandler, h, hinv]

theorem deregister_size (st : IllustratedMessage) :
    (_deRegisterResizeHandler st).illustrationSize = st.illustrationSize := by
  unfold _deRegisterResizeHandler
  split <;> rfl

theorem updateMedia_preserves (w : Nat) (st : IllustratedMessage) :
    (_updateMedia w st).illustrationSize = st.illustrationSize ∧
    (_updateMedia w st)._sContentResizeHandlerId = st._sContentResizeHandlerId ∧
    (_updateMedia w st).registered = st.registered := by
  unfold _updateMedia
  split
  · exact ⟨rfl, rfl, rfl⟩
  · split
    · exact ⟨(updateMediaStyle_preserves _ _).2.2.1, (updateMediaStyle_preserves _ _).2.2.2.1,
        (updateMediaStyle_preserves _ _).2.2.2.2⟩
    · split
      · exact ⟨(updateMediaStyle_preserves _ _).2.2.1, (updateMediaStyle_preserves _ _).2.2.2.1,
          (updateMediaStyle_preserves _ _).2.2.2.2⟩
      · split
        · exact ⟨(updateMediaStyle_preserves _ _).2.2.1, (updateMediaStyle_preserves _ _).2.2.2.1,
            (updateMediaStyle_preserves _ _).2.2.2.2⟩
        · exact ⟨(updateMediaStyle_preserves _ _).2.2.1, (updateMediaStyle_preserves _ _).2.2.2.1,
            (updateMediaStyle_preserves _ _).2.2.2.2⟩

theorem updateDomSize_preserves (dom : Option Nat) (st : IllustratedMessage) :
    (_updateDomSize dom st).illustrationSize = st.illustrationSize ∧
    (_updateDomSize dom st)._sContentResizeHandlerId = st._sContentResizeHandlerId ∧
    (_updateDomSize dom st).registered = st.registered := by
  cases dom with
  | none => exact ⟨rfl, rfl, rfl⟩
  | some w =>
    by_cases hA : st.illustrationSize = IllustratedMessageSize.Auto
    · have h1 : _updateDomSize (some w) st = _updateMedia w st := by
        simp [_updateDomSize, hA]
      rw [h1]
      exact updateMedia_preserves _ _
    · have h1 : _updateDomSize (some w) st =
        _updateMediaStyle
          (jsStr (MEDIA_lookup ⟨st.illustrationSize.toVal.data.map Char.toUpper⟩)) st := by
        simp [_updateDomSize, hA]
      rw [h1]
      exact ⟨(updateMediaStyle_preserves _ _).2.2.1, (updateMediaStyle_preserves _ _).2.2.2.1,
        (updateMediaStyle_preserves _ _).2.2.2.2⟩

theorem attach_spec (dom : Option Nat) (st : IllustratedMessage)
    (h1 : st._sContentResizeHandlerId = none) (h2 : st.registered = []) :
    ((_attachResizeHandlers dom st)._sContentResizeHandlerId.isSome ↔
      (dom.isSome = true ∧ st.illustrationSize = IllustratedMessageSize.Auto)) ∧
    handlerInv (_attachResizeHandlers dom st) := by
  unfold _attachResizeHandlers
  split
  · rename_i hc
    simp only [_registerResizeHandler, h1]
    constructor
    · simpa using hc
    · unfold handlerInv
      simp [h2]
  · rename_i hc
    constructor
    · rw [h1]
      simpa using hc
    · unfold handlerInv
      rw [h1, h2]

/-- C7: a content resize handler is registered by `onAfterRendering` if
and only if `illustrationSize` is `Auto` and the control has a DOM
reference; `onBeforeRendering` and `exit` always deregister it, so after
`exit` and between `onBeforeRendering` and `onAfterRendering` no resize
handler of the control remains registered. -/
theorem resize_handler_lifecycle (oDomRef : Option Nat) (st : IllustratedMessage)
    (hinv : handlerInv st) :
    ((exit st)._sContentResizeHandlerId = none ∧ (exit st).registered = []) ∧
    ((onBeforeRendering st)._sContentResizeHandlerId = none ∧
      (onBeforeRendering st).registered = []) ∧
    ((onAfterRendering oDomRef (onBeforeRendering st))._sContentResizeHandlerId.isSome ↔
      (oDomRef.isSome = true ∧ st.illustrationSize = IllustratedMessageSize.Auto)) ∧
    handlerInv (onAfterRendering oDomRef (onBeforeRendering st)) := by
  have hde := deregister_clears st hinv
  refine ⟨hde, hde, ?_, ?_⟩
  all_goals
    have hdom := updateDomSize_preserves oDomRef (_deRegisterResizeHandler st)
    have ha := attach_spec oDomRef (_updateDomSize oDomRef (_deRegisterResizeHandler st))
      (hdom.2.1.trans hde.1) (hdom.2.2.trans hde.2)
  · rw [show onAfterRendering oDomRef (onBeforeRendering st) =
      _attachResizeHandlers oDomRef (_updateDomSize oDomRef (_deRegisterResizeHandler st))
      from rfl]
    rw [ha.1, hdom.1, deregister_size]
  · exact ha.2

/-- Witness for C7: a fresh control, rendered with a DOM of width 400 in
the `Auto` size, ends `onAfterRendering` with a registered handler. -/
theorem resize_handler_lifecycle_witness :
    handlerInv sample ∧
    ((onAfterRendering (some 400) (onBeforeRendering sample))._sContentResizeHandlerId.isSome ↔
      ((some 400 : Option Nat).isSome = true ∧
        sample.illustrationSize = IllustratedMessageSize.Auto)) :=
  ⟨rfl, (resize_handler_lifecycle (some 400) sample rfl).2.2.1⟩

end SapF.IllustratedMessage
